import Mathlib

/-!
Verification of the bpftrace PMDA core (`src/pmdas/bpftrace/bpftrace.py`).

The development shallowly embeds the Python module: Python dicts become
insertion-ordered association lists, JSON values become an inductive type,
`json.loads` becomes a fuel-based recursive parser, the two regular
expressions of `parse_script` become explicit backtracking scanners with the
same match semantics, and the stateful methods of class `BPFtrace` become
explicit state-passing functions.  Python exceptions that the source can
raise while mutating shared state are modelled by returning the partially
mutated state together with an optional error.  Unicode-specific behaviour
of Python's `\w` and `str.isspace` is modelled over ASCII, which is the
alphabet the scripts and the bpftrace output protocol use.
-/

/-- Python `dict.__getitem__` lookup on an insertion-ordered association
list (returns the value of the unique entry with the given key). -/
def dictGet {α : Type} : List (String × α) → String → Option α
  | [], _ => none
  | (k, v) :: rest, key => if k = key then some v else dictGet rest key

/-- Python `dict.__setitem__`: replace the value in place if the key is
present (keeping its position), otherwise append a new entry. -/
def dictSet {α : Type} : List (String × α) → String → α → List (String × α)
  | [], key, val => [(key, val)]
  | (k, v) :: rest, key, val =>
    if k = key then (k, val) :: rest else (k, v) :: dictSet rest key val

/-- Python `dict.update`: fold `dictSet` over the entries of the argument
in order (models `self._state.maps.update(obj['data'])`, line 82). -/
def dictUpdate {α : Type} (d : List (String × α)) (d2 : List (String × α)) :
    List (String × α) :=
  d2.foldl (fun acc kv => dictSet acc kv.1 kv.2) d

/-- JSON values as produced by `json.loads`.  Integral numbers are `num`;
a number written with a fraction or exponent becomes `fnum m e`, the exact
decimal m·10^e (the IEEE rounding Python applies to floats is not modelled;
no claim exercises non-integral numbers). -/
inductive Json where
  | null
  | bool (b : Bool)
  | num (i : Int)
  | fnum (m : Int) (e : Int)
  | str (s : String)
  | arr (xs : List Json)
  | obj (kvs : List (String × Json))

/-- Python `repr` of a JSON-decoded value (used by `str.format` for
non-string values; string escaping inside `repr` is not modelled since no
claim exercises it). -/
def pyRepr : Json → String
  | .null => "None"
  | .bool true => "True"
  | .bool false => "False"
  | .num i => toString i
  | .fnum m e => toString m ++ "e" ++ toString e
  | .str s => "\x27" ++ s ++ "\x27"
  | .arr xs => "[" ++ String.intercalate ", " (xs.attach.map (fun x => pyRepr x.1)) ++ "]"
  | .obj kvs =>
    "\x7b" ++
      String.intercalate ", "
        (kvs.attach.map (fun kv => "\x27" ++ kv.1.1 ++ "\x27: " ++ pyRepr kv.1.2)) ++
    "\x7d"
decreasing_by
  all_goals simp_wf
  · have h := List.sizeOf_lt_of_mem x.2
    omega
  · have h := List.sizeOf_lt_of_mem kv.2
    obtain ⟨⟨k, v⟩, hm⟩ := kv
    simp at h ⊢
    omega

/-- Python `'{}'.format(x)` on a JSON-decoded value: a string formats as
itself, everything else as its `str`/`repr` rendering (line 86).  The
atomic cases are spelled out so that the function reduces without the
well-founded recursion of `pyRepr`; containers (which Python renders via
`repr` and which never occur as bucket bounds) still go through it. -/
def pyFormat (x : Json) : String :=
  match x with
  | .null => "None"
  | .bool true => "True"
  | .bool false => "False"
  | .num i => toString i
  | .fnum m e => toString m ++ "e" ++ toString e
  | .str s => s
  | .arr xs => pyRepr (.arr xs)
  | .obj kvs => pyRepr (.obj kvs)

/-- Errors raised by the Python code paths that the embedding models. -/
inductive PyErr where
  | keyError (k : String)
  | typeError
  | attributeError
deriving DecidableEq, Repr

/-- Python `+` on JSON-decoded values: string concatenation, integer
addition (`True`/`False` count as 1/0), list concatenation; every other
combination raises TypeError.  Float arithmetic is out of scope and never
reached by the source's use (`maps.get('@printf', '') + obj['msg']`). -/
def pyAdd : Json → Json → Except PyErr Json
  | .str a, .str b => .ok (.str (a ++ b))
  | .num a, .num b => .ok (.num (a + b))
  | .num a, .bool b => .ok (.num (a + (if b then 1 else 0)))
  | .bool a, .num b => .ok (.num ((if a then 1 else 0) + b))
  | .bool a, .bool b => .ok (.num ((if a then 1 else 0) + (if b then 1 else 0)))
  | .arr a, .arr b => .ok (.arr (a ++ b))
  | _, _ => .error .typeError

/-- JSON structural whitespace (space, tab, newline, carriage return),
skipped by `json.loads` between tokens. -/
def jWs (cs : List Char) : List Char :=
  cs.dropWhile (fun c => c = ' ' || c = '\t' || c = '\n' || c = '\r')

/-- Value of a hexadecimal digit, for `\uXXXX` string escapes. -/
def hexVal (c : Char) : Option Nat :=
  if c.isDigit then some (c.toNat - 48)
  else if 'a' ≤ c ∧ c ≤ 'f' then some (c.toNat - 87)
  else if 'A' ≤ c ∧ c ≤ 'F' then some (c.toNat - 55)
  else none

/-- Single-character JSON string escapes. -/
def escChar (c : Char) : Option Char :=
  if c = '"' then some '"'
  else if c = '\\' then some '\\'
  else if c = '/' then some '/'
  else if c = 'b' then some (Char.ofNat 8)
  else if c = 'f' then some (Char.ofNat 12)
  else if c = 'n' then some '\n'
  else if c = 'r' then some '\r'
  else if c = 't' then some '\t'
  else none

/-- Body of a JSON string literal, after the opening quote: returns the
decoded string and the remainder after the closing quote.  Unescaped
control characters are rejected, as in Python's strict decoder. -/
def parseJString : Nat → List Char → List Char → Option (String × List Char)
  | 0, _, _ => none
  | _ + 1, [], _ => none
  | f + 1, c :: rest, acc =>
    if c = '"' then some (String.mk acc.reverse, rest)
    else if c = '\\' then
      match rest with
      | 'u' :: h1 :: h2 :: h3 :: h4 :: rest2 =>
        match hexVal h1, hexVal h2, hexVal h3, hexVal h4 with
        | some a, some b, some c2, some d =>
          parseJString f rest2 (Char.ofNat (((a * 16 + b) * 16 + c2) * 16 + d) :: acc)
        | _, _, _, _ => none
      | e :: rest2 =>
        match escChar e with
        | some ch => parseJString f rest2 (ch :: acc)
        | none => none
      | [] => none
    else if c.toNat < 32 then none
    else parseJString f rest (c :: acc)

/-- Decimal digits to a natural number. -/
def digitsToNat (ds : List Char) : Nat :=
  ds.foldl (fun n c => n * 10 + (c.toNat - 48)) 0

/-- A JSON number token at the head of the input: optional minus, an
integer part without leading zeros, optional fraction and exponent.  A
number with fraction or exponent decodes to a float (`fnum`), otherwise to
an int, exactly as Python's decoder distinguishes them. -/
def parseJNum (cs : List Char) : Option (Json × List Char) :=
  let (neg, cs1) := match cs with | '-' :: t => (true, t) | _ => (false, cs)
  match cs1 with
  | c :: _ =>
    if ¬ c.isDigit then none
    else
      let (ints, rest1) := cs1.span Char.isDigit
      if ints.length > 1 ∧ ints.headD '0' = '0' then none
      else
        let (fracDigits, rest2) :=
          match rest1 with
          | '.' :: t =>
            let (fd, r) := t.span Char.isDigit
            if fd = [] then (([] : List Char), rest1) else (fd, r)
          | _ => ([], rest1)
        let (expVal, hasExp, rest3) :=
          match rest2 with
          | 'e' :: t | 'E' :: t =>
            (match t with
             | '+' :: t2 =>
               let (ed, r) := t2.span Char.isDigit
               if ed = [] then ((0 : Int), false, rest2) else ((digitsToNat ed : Int), true, r)
             | '-' :: t2 =>
               let (ed, r) := t2.span Char.isDigit
               if ed = [] then ((0 : Int), false, rest2) else (-(digitsToNat ed : Int), true, r)
             | _ =>
               let (ed, r) := t.span Char.isDigit
               if ed = [] then ((0 : Int), false, rest2) else ((digitsToNat ed : Int), true, r))
          | _ => ((0 : Int), false, rest2)
        if fracDigits = [] ∧ ¬ hasExp then
          let iv : Int := (digitsToNat ints : Int)
          some (.num (if neg then -iv else iv), rest2)
        else
          let m : Int := (digitsToNat (ints ++ fracDigits) : Int)
          some (.fnum (if neg then -m else m) (expVal - (fracDigits.length : Int)), rest3)
  | [] => none

mutual

/-- One JSON value at the head of the input (no leading whitespace);
models the recursive descent of Python's `json` decoder. -/
def parseJVal : Nat → List Char → Option (Json × List Char)
  | 0, _ => none
  | f + 1, cs =>
    match cs with
    | [] => none
    | c :: rest =>
      if c = '\x7b' then
        match jWs rest with
        | '\x7d' :: r => some (.obj [], r)
        | cs1 => parseJMembers f cs1 []
      else if c = '[' then
        match jWs rest with
        | ']' :: r => some (.arr [], r)
        | cs1 => parseJItems f cs1 []
      else if c = '"' then
        match parseJString (rest.length + 1) rest [] with
        | some (s, r) => some (.str s, r)
        | none => none
      else if c = 't' then
        if "rue".data.isPrefixOf rest then some (.bool true, rest.drop 3) else none
      else if c = 'f' then
        if "alse".data.isPrefixOf rest then some (.bool false, rest.drop 4) else none
      else if c = 'n' then
        if "ull".data.isPrefixOf rest then some (.null, rest.drop 3) else none
      else parseJNum cs

/-- Members of a JSON object after the opening brace (first key expected at
the head).  Duplicate keys behave as repeated `dict.__setitem__`: first
position, last value. -/
def parseJMembers : Nat → List Char → List (String × Json) →
    Option (Json × List Char)
  | 0, _, _ => none
  | f + 1, cs, acc =>
    match cs with
    | '"' :: rest =>
      match parseJString (rest.length + 1) rest [] with
      | some (k, r1) =>
        match jWs r1 with
        | ':' :: r2 =>
          match parseJVal f (jWs r2) with
          | some (v, r3) =>
            match jWs r3 with
            | ',' :: r4 => parseJMembers f (jWs r4) (dictSet acc k v)
            | '\x7d' :: r4 => some (.obj (dictSet acc k v), r4)
            | _ => none
          | none => none
        | _ => none
      | none => none
    | _ => none

/-- Items of a JSON array after the opening bracket (first item expected at
the head). -/
def parseJItems : Nat → List Char → List Json → Option (Json × List Char)
  | 0, _, _ => none
  | f + 1, cs, acc =>
    match parseJVal f cs with
    | some (v, r1) =>
      match jWs r1 with
      | ',' :: r2 => parseJItems f (jWs r2) (v :: acc)
      | ']' :: r2 => some (.arr (v :: acc).reverse, r2)
      | _ => none
    | none => none

end

/-- Model of `json.loads` on one line of output: optional surrounding
whitespace around exactly one JSON value; `none` models `ValueError`. -/
def json_loads (s : String) : Option Json :=
  match parseJVal (s.data.length + 1) (jWs s.data) with
  | some (v, r) => if jWs r = [] then some v else none
  | none => none

/-- Exception class `BPFtraceError` (the module's single exception type, used
both for script errors and lifecycle errors). -/
structure BPFtraceError where
  msg : String
deriving DecidableEq, Repr

/-- Constants imported from the external `cpmapi` module (stable PCP ABI
values). -/
def PM_SEM_COUNTER : Nat := 1

/-- Constant of the external `cpmapi` module for point-in-time semantics. -/
def PM_SEM_INSTANT : Nat := 3

/-- Constant of the external `cpmapi` module for the unsigned 64-bit integer type. -/
def PM_TYPE_U64 : Nat := 3

/-- Constant of the external `cpmapi` module for the string type. -/
def PM_TYPE_STRING : Nat := 6

/-- Class `BPFtraceState` (lines 28-43): the shared mutable run state.
`maps` holds dynamically typed values, so its codomain is `Json`; `probes`
is likewise whatever the child reported. -/
structure BPFtraceState where
  status : String
  pid : Option Int
  exit_code : Option Int
  output : String
  probes : Json
  maps : List (String × Json)

/-- Method `BPFtraceState.reset` (lines 34-40): clear every field except
`status`. -/
def BPFtraceState.reset (st : BPFtraceState) : BPFtraceState :=
  { st with pid := none, exit_code := none, output := "", probes := .num 0, maps := [] }

/-- Constructor `BPFtraceState.__init__` (lines 30-32): status `stopped`, everything
else reset. -/
def initialState : BPFtraceState :=
  BPFtraceState.reset { status := "stopped", pid := none, exit_code := none,
                        output := "", probes := .num 0, maps := [] }

/-- Subscription `obj[k]` on a JSON-decoded value: KeyError when the key is absent from
a dict, TypeError when the value is not a dict (string indices of a
non-dict). -/
def pyGetItem (o : Json) (k : String) : Except PyErr Json :=
  match o with
  | .obj kvs =>
    match dictGet kvs k with
    | some v => .ok v
    | none => .error (.keyError k)
  | _ => .error .typeError

/-- Lines 76-77 of `process_output_obj`: the first record observed while
`starting` advances the status to `started`. -/
def advanceStatus (st : BPFtraceState) : BPFtraceState :=
  if st.status = "starting" then { st with status := "started" } else st

/-- Bucket-range label built at line 86:
`'{}-{}'.format(bucket.get('min', 'inf'), bucket.get('max', 'inf'))`. -/
def bucketLabel (kvs : List (String × Json)) : String :=
  pyFormat ((dictGet kvs "min").getD (.str "inf")) ++ "-" ++
    pyFormat ((dictGet kvs "max").getD (.str "inf"))

/-- The dict comprehension of lines 85-89 over one bucket list: each bucket
must be a dict (otherwise `.get` raises AttributeError) with a `count` key
(otherwise KeyError); duplicate labels behave as repeated dict insertion. -/
def histBucketMap : List Json → List (String × Json) →
    Except PyErr (List (String × Json))
  | [], acc => .ok acc
  | b :: rest, acc =>
    match b with
    | .obj kvs =>
      match dictGet kvs "count" with
      | some c => histBucketMap rest (dictSet acc (bucketLabel kvs) c)
      | none => .error (.keyError "count")
    | _ => .error .attributeError

/-- Iterating `for bucket in v` for one value of the `hist` data dict:
lists iterate their elements; an empty string or empty dict iterates
nothing (yielding an empty bucket map); any non-empty string or dict
yields a first element on which `.get` raises AttributeError; other values
are not iterable (TypeError). -/
def histIter (v : Json) : Except PyErr (List (String × Json)) :=
  match v with
  | .arr bs => histBucketMap bs []
  | .str s => if s.data = [] then .ok [] else .error .attributeError
  | .obj kvs => match kvs with | [] => .ok [] | _ => .error .attributeError
  | _ => .error .typeError

/-- The `for k, v in obj['data'].items()` loop of lines 84-89: each
successfully derived bucket map replaces `maps[k]`; an error aborts the
loop with the earlier keys already written (the exception propagates out
of the method after the partial mutation). -/
def histUpdate : List (String × Json) → BPFtraceState →
    BPFtraceState × Option PyErr
  | [], st => (st, none)
  | (k, v) :: rest, st =>
    match histIter v with
    | .ok m => histUpdate rest { st with maps := dictSet st.maps k (.obj m) }
    | .error e => (st, some e)

/-- Method `BPFtrace.process_output_obj` (lines 73-91).  The returned state is the
shared state after the call, even when a Python exception escapes (the
status advance at lines 76-77 happens before any lookup can raise); the
optional `PyErr` is that escaping exception. -/
def process_output_obj (obj : Json) (st0 : BPFtraceState) :
    BPFtraceState × Option PyErr :=
  let st := advanceStatus st0
  match pyGetItem obj "type" with
  | .error e => (st, some e)
  | .ok t =>
    match t with
    | .str ty =>
      if ty = "attached_probes" then
        match pyGetItem obj "probes" with
        | .ok p => ({ st with probes := p }, none)
        | .error e => (st, some e)
      else if ty = "map" then
        match pyGetItem obj "data" with
        | .ok (.obj data) => ({ st with maps := dictUpdate st.maps data }, none)
        | .ok _ => (st, some .typeError)
        | .error e => (st, some e)
      else if ty = "hist" then
        match pyGetItem obj "data" with
        | .ok (.obj data) => histUpdate data st
        | .ok _ => (st, some .attributeError)
        | .error e => (st, some e)
      else if ty = "printf" ∨ ty = "time" then
        match pyGetItem obj "msg" with
        | .ok m =>
          match pyAdd ((dictGet st.maps "@printf").getD (.str "")) m with
          | .ok v => ({ st with maps := dictSet st.maps "@printf" v }, none)
          | .error e => (st, some e)
        | .error e => (st, some e)
      else (st, none)
    | _ => (st, none)

/-- Whitespace in the sense of `str.isspace` (ASCII part of Python's set, which also
matches the regex class `\s`). -/
def pyIsSpace (c : Char) : Bool :=
  c = ' ' || c = '\t' || c = '\n' || c = '\r' || c = '\x0b' || c = '\x0c'

/-- Line 96: `if not line or line.isspace()' — empty or all-whitespace
lines are skipped. -/
def lineSkipped (l : String) : Bool :=
  l.data.all pyIsSpace

/-- The per-line loop of `BPFtrace.process_output` (lines 95-103): skip
blank lines, parse JSON, merge structured records, append unparseable
lines verbatim to `output`.  Only `ValueError` (= JSON parse failure) is
caught; an exception escaping `process_output_obj` terminates the reader
thread, leaving the remaining lines unprocessed — the returned `PyErr`
records that abort. -/
def process_output_lines : List String → BPFtraceState →
    BPFtraceState × Option PyErr
  | [], st => (st, none)
  | l :: rest, st =>
    if lineSkipped l then process_output_lines rest st
    else
      match json_loads l with
      | some obj =>
        match process_output_obj obj st with
        | (st', none) => process_output_lines rest st'
        | (st', some e) => (st', some e)
      | none => process_output_lines rest { st with output := st.output ++ l }

/-- Method `BPFtrace.process_output` (lines 93-109) in full: the line loop, then —
only if no exception killed the thread — the end-of-stream epilogue that
records the exit code `rc` (from `process.poll()`/`returncode`) and sets
the status to `stopped`. -/
def process_output (lines : List String) (rc : Option Int)
    (st : BPFtraceState) : BPFtraceState × Option PyErr :=
  match process_output_lines lines st with
  | (st', none) => ({ st' with status := "stopped", exit_code := rc }, none)
  | (st', some e) => (st', some e)

/-- Method `BPFtrace.start` (lines 154-174), restricted to its effect on the
shared state: refuse unless `stopped` (LifecycleError, state untouched),
otherwise reset, move to `starting` and record the child pid.  Spawning
the subprocess and the reader thread are external effects; `pid` is the
identifier the spawn returned. -/
def BPFtrace.start (pid : Int) (st : BPFtraceState) :
    BPFtraceState × Option BPFtraceError :=
  if st.status ≠ "stopped" then
    (st, some ⟨"cannot start bpftrace, current status: " ++ st.status⟩)
  else
    ({ st.reset with status := "starting", pid := some pid }, none)

/-- Method `BPFtrace.stop` (lines 176-194), restricted to its effect on the
shared state: refuse unless `started` (LifecycleError, state untouched),
otherwise pass through `stopping` (signal delivery and waiting are
external) and finish `stopped` with the exit code `rc` the process
reported. -/
def BPFtrace.stop (rc : Option Int) (_wait : Bool) (st : BPFtraceState) :
    BPFtraceState × Option BPFtraceError :=
  if st.status ≠ "started" then
    (st, some ⟨"cannot stop bpftrace, current status: " ++ st.status⟩)
  else
    ({ st with status := "stopped", exit_code := rc }, none)

/-- Helper for `pySplit`: accumulate characters up to each separator. -/
def splitChar (sep : Char) : List Char → List Char → List String
  | [], acc => [String.mk acc.reverse]
  | c :: rest, acc =>
    if c = sep then String.mk acc.reverse :: splitChar sep rest []
    else splitChar sep rest (c :: acc)

/-- Python `str.split` with a one-character separator (keeps empty pieces;
splitting the empty string yields one empty piece). -/
def pySplit (s : String) (sep : Char) : List String :=
  splitChar sep s.data []

/-- Regex class `\w` (ASCII): letters, digits, underscore. -/
def isWordChar (c : Char) : Bool :=
  c.isAlphanum || c = '_'

/-- One line matched against the MULTILINE pattern `^// (\w+): (.+)$` of
line 113: the line must be `// `, a non-empty word-character run, `: `,
and a non-empty remainder (the value, greedily to the end of the line).
Backtracking cannot shorten the `\w+` run, because the character after any
shorter run is a word character, not `:`. -/
def matchAnnotLine (l : String) : Option (String × String) :=
  match l.data with
  | '/' :: '/' :: ' ' :: rest =>
    let (w, rest2) := rest.span isWordChar
    if w = [] then none
    else
      match rest2 with
      | ':' :: ' ' :: v => if v = [] then none else some (String.mk w, String.mk v)
      | _ => none
  | _ => none

/-- Model of `re.findall(r'^// (\w+): (.+)$', script, re.MULTILINE)` (line 113):
one `(key, value)` pair per matching line, in line order. -/
def findallMeta (s : String) : List (String × String) :=
  (pySplit s '\n').filterMap matchAnnotLine

/-- Model of `re.match(r'^[a-zA-Z_]\w+$', val)` (line 116): a letter or underscore
followed by at least one word character. -/
def validNameStr (v : String) : Bool :=
  match v.data with
  | c :: c2 :: rest => (c.isAlpha || c = '_') && (c2 :: rest).all isWordChar
  | _ => false

/-- The recognized metadata of a script: the `name` and `include`
annotations stored by the loop at lines 114-123. -/
structure ScriptMeta where
  name : Option String
  incl : Option (List String)
deriving DecidableEq, Repr

/-- The metadata loop of lines 114-123: a `name` value failing the pattern
raises `BPFtraceError` immediately; an `include` value is stored split on
commas (no whitespace trimming); later annotations override earlier ones;
unknown keys are ignored. -/
def processMeta : List (String × String) → ScriptMeta →
    Except BPFtraceError ScriptMeta
  | [], m => .ok m
  | (k, v) :: rest, m =>
    if k = "name" then
      if validNameStr v then processMeta rest { m with name := some v }
      else
        .error ⟨"invalid value \x27" ++ v ++
          "\x27 for script name: must contain only alphanumeric characters and start with a letter"⟩
    else if k = "include" then
      processMeta rest { m with incl := some (pySplit v ',') }
    else processMeta rest m

/-- Match of `\s*=\s*` at the head of the input: the greedy `\s*` must consume the
maximal whitespace run (no whitespace character is `=`), then a literal
`=`, then the maximal whitespace run again.  Note `\s` crosses newlines. -/
def matchEq (cs : List Char) : Option (List Char) :=
  match cs.dropWhile pyIsSpace with
  | '=' :: rest => some (rest.dropWhile pyIsSpace)
  | _ => none

/-- The trailing optional group `(count|hist)?` of the variables regex
(line 126): try `count`, then `hist`, then the empty match.  `lhist` is
not an alternative of the group, so it can never be captured. -/
def matchFunc (cs : List Char) : String × List Char :=
  if "count".data.isPrefixOf cs then ("count", cs.drop 5)
  else if "hist".data.isPrefixOf cs then ("hist", cs.drop 4)
  else ("", cs)

/-- Candidates for the lazy group `\[.+?\]`, given the input after the
opening `[` : every closing `]` with a non-empty, newline-free content
before it, shortest content first (the order lazy backtracking explores). -/
def bracketCands : List Char → String → List (String × List Char)
  | [], _ => []
  | c :: rest, acc =>
    if c = '\n' then []
    else if c = ']' then
      if acc = "" then bracketCands rest (acc.push ']')
      else (acc, rest) :: bracketCands rest (acc.push ']')
    else bracketCands rest (acc.push c)

/-- Try each bracket candidate in lazy order against the remainder of the
pattern (`\s*=\s*(count|hist)?`); the first that succeeds wins. -/
def tryCands : List (String × List Char) → Option (String × String × List Char)
  | [] => none
  | (content, rest) :: more =>
    match matchEq rest with
    | some r2 =>
      let (fn, r3) := matchFunc r2
      some ("[" ++ content ++ "]", fn, r3)
    | none => tryCands more

/-- Backtracking match of `(@.*?)(\[.+?\])?\s*=\s*(count|hist)?` with the
`@` already consumed and `acc` the body of the lazy group `@.*?` so far.
At each expansion of the lazy group the engine first tries the optional
bracket group (greedy `?`, all lazy contents), then the match without it,
then grows the lazy group by one non-newline character.  Returns the three
captured groups and the remainder after the match. -/
def tryAt : List Char → String → Option (String × String × String × List Char)
  | [], _ => none
  | c :: tl, acc =>
    let optA :=
      if c = '[' then tryCands (bracketCands tl "") else none
    match optA with
    | some (key, fn, r3) => some ("@" ++ acc, key, fn, r3)
    | none =>
      match matchEq (c :: tl) with
      | some r2 =>
        let (fn, r3) := matchFunc r2
        some ("@" ++ acc, "", fn, r3)
      | none =>
        if c = '\n' then none else tryAt tl (acc.push c)

/-- The scan of `re.findall` (line 126): try the pattern at each position
left to right; a non-overlapping match contributes its groups and the scan
resumes after it.  The pattern can only start at `@`.  The fuel is the
remaining input length plus one, which the strictly consuming scan never
exhausts. -/
def scanVarsF : Nat → List Char → List (String × String × String)
  | 0, _ => []
  | _ + 1, [] => []
  | f + 1, c :: tl =>
    if c = '@' then
      match tryAt tl "" with
      | some (var, key, fn, rest) => (var, key, fn) :: scanVarsF f rest
      | none => scanVarsF f tl
    else scanVarsF f tl

/-- Model of `re.findall(r'(@.*?)(\[.+?\])?\s*=\s*(count|hist)?', script)`
(line 126): the list of `(variable, key, function)` captures. -/
def findallVars (s : String) : List (String × String × String) :=
  scanVarsF (s.data.length + 1) s.data

/-- Model of `re.search(r'printf\s*\(', script)` (line 145): some position starts
`printf`, then (maximal) whitespace, then `(`. -/
def printfScan : List Char → Bool
  | [] => false
  | c :: tl =>
    ("printf".data.isPrefixOf (c :: tl) &&
      (match (List.drop 6 (c :: tl)).dropWhile pyIsSpace with
       | '(' :: _ => true
       | _ => false)) ||
    printfScan tl

/-- Whether the script contains a `printf` call (line 145); searched on
the script after the periodic clause was appended. -/
def hasPrintfCall (s : String) : Bool :=
  printfScan s.data

/-- Class `BPFtraceVarDef` (lines 45-53). -/
structure BPFtraceVarDef where
  single : Bool
  semantics : Nat
  datatype : Nat
deriving DecidableEq, Repr

/-- The descriptor derivation of lines 132-139: default scalar, INSTANT,
U64; a `hist`/`lhist` function makes it non-scalar COUNTER (but the regex
never captures `lhist`, see `matchFunc`); `count` makes it COUNTER; a
bracketed key makes it non-scalar. -/
def mkVarDef (key fn : String) : BPFtraceVarDef :=
  let vd : BPFtraceVarDef := ⟨true, PM_SEM_INSTANT, PM_TYPE_U64⟩
  let vd := if fn = "hist" ∨ fn = "lhist" then
    { vd with single := false, semantics := PM_SEM_COUNTER } else vd
  let vd := if fn = "count" then { vd with semantics := PM_SEM_COUNTER } else vd
  if key ≠ "" then { vd with single := false } else vd

/-- The variables loop of lines 128-140: skip a variable absent from a
present `include` list, otherwise insert its descriptor (a duplicate name
keeps its first position with the last descriptor). -/
def buildVarDefs (incl : Option (List String)) :
    List (String × String × String) → List (String × BPFtraceVarDef) →
    List (String × BPFtraceVarDef)
  | [], d => d
  | (var, key, fn) :: rest, d =>
    match incl with
    | some l =>
      if var ∈ l then buildVarDefs incl rest (dictSet d var (mkVarDef key fn))
      else buildVarDefs incl rest d
    | none => buildVarDefs incl rest (dictSet d var (mkVarDef key fn))

/-- Statement text `'print({});'.format(var)` (line 142). -/
def printStmt (var : String) : String :=
  "print(" ++ var ++ ");"

/-- The forced periodic output clause of lines 142-143: a fixed 1-second
interval probe printing each declared variable once, in declaration
order. -/
def mkClause (keys : List String) : String :=
  " interval:s:1 \x7b " ++ String.intercalate " " (keys.map printStmt) ++ " \x7d"

/-- Lines 145-148: add the reserved `@printf` console-text declaration
when the (rewritten) script contains a `printf` call and `include` either
is absent or lists `@printf` literally. -/
def varDefsAfterPrintf (incl : Option (List String)) (script1 : String)
    (d : List (String × BPFtraceVarDef)) : List (String × BPFtraceVarDef) :=
  if hasPrintfCall script1 ∧ (incl = none ∨ "@printf" ∈ incl.getD []) then
    dictSet d "@printf" ⟨true, PM_SEM_INSTANT, PM_TYPE_STRING⟩
  else d

/-- The outcome of `BPFtrace.__init__`/`parse_script`: metadata, variable
declarations, and the rewritten script. -/
structure ParseResult where
  meta : ScriptMeta
  var_defs : List (String × BPFtraceVarDef)
  script : String
deriving DecidableEq, Repr

/-- Method `BPFtrace.parse_script` (lines 111-152): process the annotations
(possibly raising on an invalid name), scan the variable declarations,
build the descriptor dict, append the periodic clause when the scan found
any match, add the reserved `@printf` declaration, and fail when the
declaration dict ends up empty. -/
def parse_script (script : String) : Except BPFtraceError ParseResult :=
  match processMeta (findallMeta script) ⟨none, none⟩ with
  | .error e => .error e
  | .ok md =>
    let vars := findallVars script
    let d1 := buildVarDefs md.incl vars []
    let script1 :=
      match vars with
      | [] => script
      | _ => script ++ mkClause (d1.map Prod.fst)
    let d2 := varDefsAfterPrintf md.incl script1 d1
    match d2 with
    | [] => .error ⟨"no bpftrace variables or printf statements found, please include at least one variable or print statement in your script"⟩
    | _ => .ok ⟨md, d2, script1⟩

/-- The rewritten script `parse_script` produces under metadata `md`:
unchanged when the variable scan found nothing, otherwise extended with
the periodic print clause. -/
def script1Of (script : String) (md : ScriptMeta) : String :=
  match findallVars script with
  | [] => script
  | _ => script ++ mkClause ((buildVarDefs md.incl (findallVars script) []).map Prod.fst)

/-- The final declaration dict `parse_script` computes under metadata
`md` (variable declarations plus the possible reserved `@printf` one). -/
def finalDefsOf (script : String) (md : ScriptMeta) : List (String × BPFtraceVarDef) :=
  varDefsAfterPrintf md.incl (script1Of script md)
    (buildVarDefs md.incl (findallVars script) [])

/-- The declaration set `parse_script` computes (empty when the metadata
loop raises first); the emptiness test at line 150 is the second failure
condition. -/
def resultingDeclSet (script : String) : List (String × BPFtraceVarDef) :=
  match processMeta (findallMeta script) ⟨none, none⟩ with
  | .error _ => []
  | .ok md => finalDefsOf script md

/-- Whether some `name` annotation of the script has a value rejected by
the pattern `^[a-zA-Z_]\w+$`. -/
def hasInvalidName (script : String) : Prop :=
  ∃ p ∈ findallMeta script, p.1 = "name" ∧ validNameStr p.2 = false

/-- The scanned declarations surviving the `include` filter (the spec's
"recognized metric declarations"). -/
def keptVars (incl : Option (List String))
    (vars : List (String × String × String)) :
    List (String × String × String) :=
  vars.filter (fun t => match incl with | none => true | some l => decide (t.1 ∈ l))

/-- First occurrences of a list of names, in order (the key order a Python
dict built by repeated insertion exhibits). -/
def firstOccs (l : List String) : List String :=
  l.foldl (fun acc v => if v ∈ acc then acc else acc ++ [v]) []

/-- State as produced by `start()` (status `starting`, everything else
reset; the recorded pid is irrelevant to the claims and left absent). -/
def startingState : BPFtraceState :=
  { status := "starting", pid := none, exit_code := none, output := "",
    probes := .num 0, maps := [] }

/-- Primitive values held inside a nested bucket map. -/
inductive Prim where
  | num (i : Int)
  | str (s : String)
deriving DecidableEq, Repr

/-- A value of the live metric map in the heap model of `state()`: either
a primitive or a reference to a nested dict object (a histogram bucket
map) on the heap. -/
inductive HVal where
  | prim (p : Prim)
  | ref (a : Nat)
deriving DecidableEq, Repr

/-- An explicit heap of nested dict objects, to make Python's object
aliasing observable: `cells` maps an address to a bucket map; `next` is
the allocation frontier. -/
structure Heap where
  cells : List (Nat × List (String × Prim))
  next : Nat
deriving DecidableEq, Repr

/-- Association lookup in the heap cells. -/
def cellGet : List (Nat × List (String × Prim)) → Nat → Option (List (String × Prim))
  | [], _ => none
  | (a, d) :: rest, b => if a = b then some d else cellGet rest b

/-- The bucket map an address denotes (empty if unallocated). -/
def Heap.lookup (h : Heap) (a : Nat) : List (String × Prim) :=
  (cellGet h.cells a).getD []

/-- Heap well-formedness: every allocated address is below the frontier. -/
def Heap.WF (h : Heap) : Prop :=
  ∀ p ∈ h.cells, p.1 < h.next

/-- Update the bucket map stored at one address. -/
def writeCells : List (Nat × List (String × Prim)) → Nat → String → Prim →
    List (Nat × List (String × Prim))
  | [], _, _, _ => []
  | (b, d) :: rest, a, k, p =>
    if b = a then (b, dictSet d k p) :: writeCells rest a k p
    else (b, d) :: writeCells rest a k p

/-- A writer mutation of a nested bucket map in place: what the ingestor's
`self._state.maps[k][label] = ...`-style updates amount to on the heap. -/
def Heap.writeBucket (h : Heap) (a : Nat) (k : String) (p : Prim) : Heap :=
  { h with cells := writeCells h.cells a k p }

/-- Model of `copy.deepcopy` on the metric map: primitives are copied by value and
every nested dict is re-allocated at a fresh address with the same
contents, in iteration order. -/
def deepcopyDict (h : Heap) : List (String × HVal) → Heap × List (String × HVal)
  | [] => (h, [])
  | (k, .prim p) :: rest =>
    let (h2, r) := deepcopyDict h rest
    (h2, (k, .prim p) :: r)
  | (k, .ref a) :: rest =>
    let h1 : Heap := { cells := h.cells ++ [(h.next, h.lookup a)], next := h.next + 1 }
    let (h2, r) := deepcopyDict h1 rest
    (h2, (k, .ref h.next) :: r)

/-- Method `BPFtrace.state` (lines 68-71): under the lock, return
`deepcopy(self._state)` — modelled for the metric map, the only part of
the state with nested mutable objects. -/
def BPFtrace.state (h : Heap) (live : List (String × HVal)) :
    Heap × List (String × HVal) :=
  deepcopyDict h live

/-- Pure readout of one map value: dereference nested dicts. -/
inductive PVal where
  | prim (p : Prim)
  | dict (entries : List (String × Prim))
deriving DecidableEq, Repr

/-- Reading a map value out of the heap. -/
def readVal (h : Heap) : HVal → PVal
  | .prim p => .prim p
  | .ref a => .dict (h.lookup a)

/-- The observable contents of a metric map: every entry read out of the
heap. -/
def readDict (h : Heap) (d : List (String × HVal)) : List (String × PVal) :=
  d.map (fun kv => (kv.1, readVal h kv.2))

/-- The heap addresses a metric map references. -/
def refsOf (d : List (String × HVal)) : List Nat :=
  d.filterMap (fun kv => match kv.2 with | .ref a => some a | .prim _ => none)

/-- Key insertion as a Python dict sees it: keep the key's first position,
append when new. -/
def addKey (acc : List String) (v : String) : List String :=
  if v ∈ acc then acc else acc ++ [v]

theorem dictSet_keys {α : Type} (d : List (String × α)) (k : String) (v : α) :
    (dictSet d k v).map Prod.fst = addKey (d.map Prod.fst) k := by
  induction d with
  | nil => simp [dictSet, addKey]
  | cons hd tl ih =>
    obtain ⟨k', v'⟩ := hd
    by_cases hk : k' = k
    · subst hk
      simp [dictSet, addKey]
    · simp only [dictSet, if_neg hk, List.map_cons, ih, addKey]
      by_cases hmem : k ∈ tl.map Prod.fst
      · simp [hmem, Ne.symm hk]
      · simp [hmem, Ne.symm hk]

theorem addKey_mem (acc : List String) (w v : String) :
    v ∈ addKey acc w ↔ v ∈ acc ∨ v = w := by
  unfold addKey
  by_cases h : w ∈ acc
  · simp only [if_pos h]
    constructor
    · exact Or.inl
    · rintro (hv | rfl)
      · exact hv
      · exact h
  · simp [if_neg h]

theorem addKey_nodup (acc : List String) (w : String) (h : acc.Nodup) :
    (addKey acc w).Nodup := by
  unfold addKey
  by_cases hw : w ∈ acc
  · simpa [hw]
  · simp only [if_neg hw]
    simpa [List.nodup_append, hw] using h

theorem foldl_addKey_mem (l : List String) (acc : List String) (v : String) :
    v ∈ l.foldl addKey acc ↔ v ∈ acc ∨ v ∈ l := by
  induction l generalizing acc with
  | nil => simp
  | cons hd tl ih =>
    simp only [List.foldl_cons, ih, addKey_mem, List.mem_cons]
    tauto

theorem foldl_addKey_nodup (l : List String) (acc : List String)
    (h : acc.Nodup) : (l.foldl addKey acc).Nodup := by
  induction l generalizing acc with
  | nil => simpa
  | cons hd tl ih => exact ih _ (addKey_nodup _ _ h)

theorem firstOccs_eq_foldl (l : List String) :
    firstOccs l = l.foldl addKey [] := rfl

theorem dictSet_ne_nil {α : Type} (d : List (String × α)) (k : String) (v : α) :
    dictSet d k v ≠ [] := by
  cases d with
  | nil => simp [dictSet]
  | cons hd tl =>
    obtain ⟨k', v'⟩ := hd
    by_cases hk : k' = k <;> simp [dictSet, hk]


theorem keptVars_none (vars : List (String × String × String)) :
    keptVars none vars = vars := by
  simp [keptVars]

theorem keptVars_some_cons_mem (l : List String) (t : String × String × String)
    (tl : List (String × String × String)) (h : t.1 ∈ l) :
    keptVars (some l) (t :: tl) = t :: keptVars (some l) tl := by
  simp [keptVars, List.filter_cons, h]

theorem keptVars_some_cons_notMem (l : List String) (t : String × String × String)
    (tl : List (String × String × String)) (h : t.1 ∉ l) :
    keptVars (some l) (t :: tl) = keptVars (some l) tl := by
  simp [keptVars, List.filter_cons, h]

theorem buildVarDefs_keys (incl : Option (List String))
    (vars : List (String × String × String)) (d : List (String × BPFtraceVarDef)) :
    (buildVarDefs incl vars d).map Prod.fst
      = ((keptVars incl vars).map (fun t => t.1)).foldl addKey (d.map Prod.fst) := by
  induction vars generalizing d with
  | nil => cases incl <;> simp [buildVarDefs, keptVars]
  | cons hd tl ih =>
    obtain ⟨var, key, fn⟩ := hd
    cases incl with
    | none =>
      simp only [buildVarDefs]
      rw [ih, dictSet_keys, keptVars_none, keptVars_none, List.map_cons,
        List.foldl_cons]
    | some l =>
      by_cases hv : var ∈ l
      · simp only [buildVarDefs]
        rw [if_pos hv, ih, dictSet_keys,
          keptVars_some_cons_mem l (var, key, fn) tl hv, List.map_cons,
          List.foldl_cons]
      · simp only [buildVarDefs]
        rw [if_neg hv, ih, keptVars_some_cons_notMem l (var, key, fn) tl hv]

theorem mem_keptVars_map (l : List String)
    (vars : List (String × String × String)) (v : String) :
    v ∈ (keptVars (some l) vars).map (fun t => t.1)
      ↔ v ∈ vars.map (fun t => t.1) ∧ v ∈ l := by
  simp only [keptVars, List.mem_map, List.mem_filter, decide_eq_true_eq]
  constructor
  · rintro ⟨t, ⟨ht, hl⟩, rfl⟩
    exact ⟨⟨t, ht, rfl⟩, hl⟩
  · rintro ⟨⟨t, ht, rfl⟩, hl⟩
    exact ⟨t, ⟨ht, hl⟩, rfl⟩

theorem mem_varDefsAfterPrintf (incl : Option (List String)) (s1 : String)
    (d : List (String × BPFtraceVarDef)) (v : String) :
    v ∈ (varDefsAfterPrintf incl s1 d).map Prod.fst
      ↔ v ∈ d.map Prod.fst
        ∨ (v = "@printf" ∧ hasPrintfCall s1 = true
            ∧ (incl = none ∨ "@printf" ∈ incl.getD [])) := by
  unfold varDefsAfterPrintf
  by_cases hc : hasPrintfCall s1 = true ∧ (incl = none ∨ "@printf" ∈ incl.getD [])
  · rw [if_pos hc, dictSet_keys, addKey_mem]
    tauto
  · rw [if_neg hc]
    tauto

theorem varDefsAfterPrintf_ne_nil (incl : Option (List String)) (s1 : String)
    (d : List (String × BPFtraceVarDef)) (h : d ≠ []) :
    varDefsAfterPrintf incl s1 d ≠ [] := by
  unfold varDefsAfterPrintf
  split
  · exact dictSet_ne_nil _ _ _
  · exact h

theorem processMeta_error_iff (anns : List (String × String)) (m : ScriptMeta) :
    (∃ e, processMeta anns m = .error e)
      ↔ ∃ p ∈ anns, p.1 = "name" ∧ validNameStr p.2 = false := by
  induction anns generalizing m with
  | nil => simp [processMeta]
  | cons hd tl ih =>
    obtain ⟨k, v⟩ := hd
    simp only [processMeta]
    by_cases hk : k = "name"
    · rw [if_pos hk]
      by_cases hv : validNameStr v = true
      · rw [if_pos hv, ih]
        constructor
        · rintro ⟨p, hp, h1, h2⟩
          exact ⟨p, List.mem_cons_of_mem _ hp, h1, h2⟩
        · rintro ⟨p, hp, h1, h2⟩
          rcases List.mem_cons.mp hp with heq | hp'
          · rw [heq] at h2
            simp only at h2
            rw [h2] at hv
            cases hv
          · exact ⟨p, hp', h1, h2⟩
      · rw [if_neg hv]
        constructor
        · intro _
          exact ⟨(k, v), List.mem_cons_self _ _, hk, Bool.eq_false_iff.mpr hv⟩
        · intro _
          exact ⟨_, rfl⟩
    · rw [if_neg hk]
      by_cases hi : k = "include"
      · rw [if_pos hi, ih]
        constructor
        · rintro ⟨p, hp, h1, h2⟩
          exact ⟨p, List.mem_cons_of_mem _ hp, h1, h2⟩
        · rintro ⟨p, hp, h1, h2⟩
          rcases List.mem_cons.mp hp with heq | hp'
          · rw [heq] at h1
            exact absurd h1 hk
          · exact ⟨p, hp', h1, h2⟩
      · rw [if_neg hi, ih]
        constructor
        · rintro ⟨p, hp, h1, h2⟩
          exact ⟨p, List.mem_cons_of_mem _ hp, h1, h2⟩
        · rintro ⟨p, hp, h1, h2⟩
          rcases List.mem_cons.mp hp with heq | hp'
          · rw [heq] at h1
            exact absurd h1 hk
          · exact ⟨p, hp', h1, h2⟩

theorem advanceStatus_maps (st : BPFtraceState) :
    (advanceStatus st).maps = st.maps := by
  unfold advanceStatus
  split <;> rfl

theorem advanceStatus_probes (st : BPFtraceState) :
    (advanceStatus st).probes = st.probes := by
  unfold advanceStatus
  split <;> rfl

theorem histUpdate_status (data : List (String × Json)) (st : BPFtraceState) :
    ((histUpdate data st).1).status = st.status := by
  induction data generalizing st with
  | nil => rfl
  | cons hd tl ih =>
    obtain ⟨k, v⟩ := hd
    simp only [histUpdate]
    split
    · exact ih _
    · rfl

theorem process_output_obj_status (obj : Json) (st : BPFtraceState) :
    ((process_output_obj obj st).1).status = (advanceStatus st).status := by
  unfold process_output_obj
  repeat' split
  all_goals first
    | rfl
    | exact histUpdate_status _ _
    | (dsimp only; split <;> rfl)

/-- The spec's bucket-range label: `"min-max"`, using the literal token
`inf` where a bound is absent from the bucket. -/
def specBucketLabel (kvs : List (String × Json)) : String :=
  (match dictGet kvs "min" with | some v => pyFormat v | none => "inf") ++ "-" ++
  (match dictGet kvs "max" with | some v => pyFormat v | none => "inf")

/-- The spec's derived histogram value: fold the buckets into a mapping
from the bucket-range label to the bucket's count. -/
def specHistValue (buckets : List (List (String × Json))) : List (String × Json) :=
  buckets.foldl
    (fun acc kvs => dictSet acc (specBucketLabel kvs) ((dictGet kvs "count").getD .null))
    []

theorem bucketLabel_eq_spec (kvs : List (String × Json)) :
    bucketLabel kvs = specBucketLabel kvs := by
  unfold bucketLabel specBucketLabel
  cases hmin : dictGet kvs "min" <;> cases hmax : dictGet kvs "max" <;> rfl

theorem histBucketMap_ok (bss : List (List (String × Json)))
    (acc : List (String × Json))
    (h : ∀ kvs ∈ bss, (dictGet kvs "count").isSome = true) :
    histBucketMap (bss.map Json.obj) acc
      = .ok (bss.foldl
          (fun a kvs => dictSet a (specBucketLabel kvs) ((dictGet kvs "count").getD .null))
          acc) := by
  induction bss generalizing acc with
  | nil => rfl
  | cons kvs tl ih =>
    have hc : (dictGet kvs "count").isSome = true := h kvs (List.mem_cons_self _ _)
    obtain ⟨c, hcv⟩ := Option.isSome_iff_exists.mp hc
    simp only [List.map_cons, histBucketMap, hcv, List.foldl_cons]
    rw [ih _ (fun k hk => h k (List.mem_cons_of_mem _ hk)), bucketLabel_eq_spec]
    rfl

theorem histUpdate_entries
    (entries : List (String × List (List (String × Json))))
    (st : BPFtraceState)
    (h : ∀ e ∈ entries, ∀ kvs ∈ e.2, (dictGet kvs "count").isSome = true) :
    histUpdate (entries.map (fun e => (e.1, Json.arr (e.2.map Json.obj)))) st
      = ({ st with
            maps := entries.foldl
              (fun m e => dictSet m e.1 (.obj (specHistValue e.2))) st.maps },
         none) := by
  induction entries generalizing st with
  | nil => rfl
  | cons hd tl ih =>
    obtain ⟨k, bss⟩ := hd
    have hhd : ∀ kvs ∈ bss, (dictGet kvs "count").isSome = true :=
      h (k, bss) (List.mem_cons_self _ _)
    simp only [List.map_cons, histUpdate, histIter,
      histBucketMap_ok bss [] hhd, List.foldl_cons]
    exact ih _ (fun e he => h e (List.mem_cons_of_mem _ he))


theorem refsOf_cons_prim (k : String) (p : Prim) (tl : List (String × HVal)) :
    refsOf ((k, HVal.prim p) :: tl) = refsOf tl := rfl

theorem refsOf_cons_ref (k : String) (a : Nat) (tl : List (String × HVal)) :
    refsOf ((k, HVal.ref a) :: tl) = a :: refsOf tl := rfl

theorem readDict_cons (h : Heap) (k : String) (v : HVal)
    (tl : List (String × HVal)) :
    readDict h ((k, v) :: tl) = (k, readVal h v) :: readDict h tl := rfl

theorem deepcopyDict_cons_prim (h : Heap) (k : String) (p : Prim)
    (tl : List (String × HVal)) :
    deepcopyDict h ((k, HVal.prim p) :: tl)
      = ((deepcopyDict h tl).1, (k, HVal.prim p) :: (deepcopyDict h tl).2) := by
  simp only [deepcopyDict]

theorem deepcopyDict_cons_ref (h : Heap) (k : String) (a : Nat)
    (tl : List (String × HVal)) :
    deepcopyDict h ((k, HVal.ref a) :: tl)
      = ((deepcopyDict { cells := h.cells ++ [(h.next, h.lookup a)], next := h.next + 1 } tl).1,
         (k, HVal.ref h.next)
           :: (deepcopyDict { cells := h.cells ++ [(h.next, h.lookup a)], next := h.next + 1 } tl).2) := by
  simp only [deepcopyDict]

theorem cellGet_eq_none (cs : List (Nat × List (String × Prim))) (a : Nat)
    (h : ∀ p ∈ cs, p.1 ≠ a) : cellGet cs a = none := by
  induction cs with
  | nil => rfl
  | cons hd tl ih =>
    obtain ⟨b, d⟩ := hd
    simp only [cellGet, if_neg (h (b, d) (List.mem_cons_self _ _))]
    exact ih (fun p hp => h p (List.mem_cons_of_mem _ hp))

theorem cellGet_append_single_ne (cs : List (Nat × List (String × Prim)))
    (b : Nat) (d : List (String × Prim)) (a : Nat) (h : a ≠ b) :
    cellGet (cs ++ [(b, d)]) a = cellGet cs a := by
  induction cs with
  | nil => simp [cellGet, Ne.symm h]
  | cons hd tl ih =>
    obtain ⟨b', d'⟩ := hd
    by_cases hb : b' = a
    · simp [cellGet, hb]
    · simp only [List.cons_append, cellGet, if_neg hb]
      exact ih

theorem cellGet_append_self (cs : List (Nat × List (String × Prim)))
    (b : Nat) (d : List (String × Prim)) (h : ∀ p ∈ cs, p.1 ≠ b) :
    cellGet (cs ++ [(b, d)]) b = some d := by
  induction cs with
  | nil => simp [cellGet]
  | cons hd tl ih =>
    obtain ⟨b', d'⟩ := hd
    simp only [List.cons_append, cellGet, if_neg (h (b', d') (List.mem_cons_self _ _))]
    exact ih (fun p hp => h p (List.mem_cons_of_mem _ hp))

theorem deepcopyDict_next_le (h : Heap) (d : List (String × HVal)) :
    h.next ≤ (deepcopyDict h d).1.next := by
  induction d generalizing h with
  | nil => exact Nat.le_refl _
  | cons hd tl ih =>
    obtain ⟨k, hv⟩ := hd
    cases hv with
    | prim p =>
      rw [deepcopyDict_cons_prim]
      exact ih h
    | ref a =>
      rw [deepcopyDict_cons_ref]
      exact Nat.le_trans (Nat.le_succ _)
        (ih { cells := h.cells ++ [(h.next, h.lookup a)], next := h.next + 1 })

theorem deepcopyDict_cells_preserve (h : Heap) (d : List (String × HVal))
    (a : Nat) (ha : a < h.next) :
    cellGet (deepcopyDict h d).1.cells a = cellGet h.cells a := by
  induction d generalizing h with
  | nil => rfl
  | cons hd tl ih =>
    obtain ⟨k, hv⟩ := hd
    cases hv with
    | prim p =>
      rw [deepcopyDict_cons_prim]
      exact ih h ha
    | ref b =>
      rw [deepcopyDict_cons_ref]
      rw [ih { cells := h.cells ++ [(h.next, h.lookup b)], next := h.next + 1 }
        (Nat.lt_trans ha (Nat.lt_succ_self _))]
      exact cellGet_append_single_ne _ _ _ _ (Nat.ne_of_lt ha)

theorem deepcopyDict_lookup_preserve (h : Heap) (d : List (String × HVal))
    (a : Nat) (ha : a < h.next) :
    (deepcopyDict h d).1.lookup a = h.lookup a := by
  unfold Heap.lookup
  rw [deepcopyDict_cells_preserve h d a ha]

theorem deepcopyDict_refs_lb (h : Heap) (d : List (String × HVal)) :
    ∀ a ∈ refsOf (deepcopyDict h d).2, h.next ≤ a := by
  induction d generalizing h with
  | nil => intro a ha; cases ha
  | cons hd tl ih =>
    obtain ⟨k, hv⟩ := hd
    cases hv with
    | prim p =>
      rw [deepcopyDict_cons_prim]
      intro a ha
      rw [refsOf_cons_prim] at ha
      exact ih h a ha
    | ref b =>
      rw [deepcopyDict_cons_ref]
      intro a ha
      rw [refsOf_cons_ref] at ha
      rcases List.mem_cons.mp ha with rfl | ha'
      · exact Nat.le_refl _
      · exact Nat.le_trans (Nat.le_succ _)
          (ih { cells := h.cells ++ [(h.next, h.lookup b)], next := h.next + 1 } a ha')

theorem deepcopyDict_refs_ub (h : Heap) (d : List (String × HVal)) :
    ∀ a ∈ refsOf (deepcopyDict h d).2, a < (deepcopyDict h d).1.next := by
  induction d generalizing h with
  | nil => intro a ha; cases ha
  | cons hd tl ih =>
    obtain ⟨k, hv⟩ := hd
    cases hv with
    | prim p =>
      rw [deepcopyDict_cons_prim]
      intro a ha
      rw [refsOf_cons_prim] at ha
      exact ih h a ha
    | ref b =>
      rw [deepcopyDict_cons_ref]
      intro a ha
      rw [refsOf_cons_ref] at ha
      rcases List.mem_cons.mp ha with rfl | ha'
      · exact Nat.lt_of_lt_of_le (Nat.lt_succ_self _)
          (deepcopyDict_next_le
            { cells := h.cells ++ [(h.next, h.lookup b)], next := h.next + 1 } tl)
      · exact ih { cells := h.cells ++ [(h.next, h.lookup b)], next := h.next + 1 } a ha'

theorem readDict_congr (h1 h2 : Heap) (d : List (String × HVal))
    (h : ∀ a ∈ refsOf d, h1.lookup a = h2.lookup a) :
    readDict h1 d = readDict h2 d := by
  unfold readDict
  apply List.map_congr_left
  intro kv hkv
  obtain ⟨k, hv⟩ := kv
  cases hv with
  | prim p => rfl
  | ref a =>
    have hmem : a ∈ refsOf d := by
      simp only [refsOf, List.mem_filterMap]
      exact ⟨(k, .ref a), hkv, rfl⟩
    simp only [readVal]
    rw [h a hmem]

theorem cellGet_writeCells_ne (cells : List (Nat × List (String × Prim)))
    (a : Nat) (k : String) (p : Prim) (b : Nat) (hne : b ≠ a) :
    cellGet (writeCells cells a k p) b = cellGet cells b := by
  induction cells with
  | nil => rfl
  | cons hd tl ih =>
    obtain ⟨b', d'⟩ := hd
    by_cases hb : b' = a
    · rw [show writeCells ((b', d') :: tl) a k p
          = (b', dictSet d' k p) :: writeCells tl a k p from by
        simp only [writeCells]; rw [if_pos hb]]
      subst hb
      simp only [cellGet, if_neg (Ne.symm hne)]
      exact ih
    · rw [show writeCells ((b', d') :: tl) a k p
          = (b', d') :: writeCells tl a k p from by
        simp only [writeCells]; rw [if_neg hb]]
      by_cases hbb : b' = b
      · simp only [cellGet, if_pos hbb]
      · simp only [cellGet, if_neg hbb]
        exact ih

theorem writeBucket_lookup_ne (h : Heap) (a : Nat) (k : String) (p : Prim)
    (b : Nat) (hne : b ≠ a) :
    (h.writeBucket a k p).lookup b = h.lookup b := by
  unfold Heap.writeBucket Heap.lookup
  simp only
  rw [cellGet_writeCells_ne h.cells a k p b hne]

theorem readDict_writeBucket_notMem (h : Heap) (a : Nat) (k : String)
    (p : Prim) (d : List (String × HVal)) (hna : a ∉ refsOf d) :
    readDict (h.writeBucket a k p) d = readDict h d := by
  apply readDict_congr
  intro b hb
  exact writeBucket_lookup_ne h a k p b (fun hba => hna (hba ▸ hb))

theorem deepcopyDict_read (h : Heap) (d : List (String × HVal)) (hwf : h.WF)
    (hd : ∀ a ∈ refsOf d, a < h.next) :
    readDict (deepcopyDict h d).1 (deepcopyDict h d).2 = readDict h d := by
  induction d generalizing h with
  | nil => rfl
  | cons hdv tl ih =>
    obtain ⟨k, hv⟩ := hdv
    cases hv with
    | prim p =>
      rw [deepcopyDict_cons_prim, readDict_cons, readDict_cons]
      dsimp only
      have htl := ih h hwf (fun a ha => hd a (by rw [refsOf_cons_prim]; exact ha))
      rw [htl]
      rfl
    | ref b =>
      have hb : b < h.next := hd b (by rw [refsOf_cons_ref]; exact List.mem_cons_self _ _)
      rw [deepcopyDict_cons_ref, readDict_cons, readDict_cons]
      dsimp only
      set h1 : Heap := { cells := h.cells ++ [(h.next, h.lookup b)], next := h.next + 1 } with hh1
      have hwf1 : h1.WF := by
        intro q hq
        rcases List.mem_append.mp hq with hold | hnew
        · exact Nat.lt_trans (hwf q hold) (Nat.lt_succ_self _)
        · rcases List.mem_singleton.mp hnew with rfl
          exact Nat.lt_succ_self _
      have htlrefs : ∀ a ∈ refsOf tl, a < h1.next := by
        intro a ha
        exact Nat.lt_trans
          (hd a (by rw [refsOf_cons_ref]; exact List.mem_cons_of_mem _ ha))
          (Nat.lt_succ_self _)
      have hfresh : readVal (deepcopyDict h1 tl).1 (HVal.ref h.next)
          = readVal h (HVal.ref b) := by
        simp only [readVal]
        rw [deepcopyDict_lookup_preserve h1 tl h.next (Nat.lt_succ_self _)]
        unfold Heap.lookup
        rw [show h1.cells = h.cells ++ [(h.next, h.lookup b)] from rfl,
          cellGet_append_self _ _ _ (fun q hq => Nat.ne_of_lt (hwf q hq))]
        rfl
      have htl2 : readDict h1 tl = readDict h tl := by
        apply readDict_congr
        intro a ha
        have han : a < h.next :=
          hd a (by rw [refsOf_cons_ref]; exact List.mem_cons_of_mem _ ha)
        unfold Heap.lookup
        rw [show h1.cells = h.cells ++ [(h.next, h.lookup b)] from rfl,
          cellGet_append_single_ne _ _ _ _ (Nat.ne_of_lt han)]
      rw [hfresh, ih h1 hwf1 htlrefs, htl2]

theorem parse_script_eq (s : String) (md : ScriptMeta)
    (hmd : processMeta (findallMeta s) ⟨none, none⟩ = .ok md) :
    parse_script s
      = (match finalDefsOf s md with
         | [] => .error ⟨"no bpftrace variables or printf statements found, please include at least one variable or print statement in your script"⟩
         | _ => .ok ⟨md, finalDefsOf s md, script1Of s md⟩) := by
  unfold parse_script finalDefsOf script1Of
  rw [hmd]

theorem parse_script_ok_inv (s : String) (md : ScriptMeta) (r : ParseResult)
    (hmd : processMeta (findallMeta s) ⟨none, none⟩ = .ok md)
    (hr : parse_script s = .ok r) :
    r = ⟨md, finalDefsOf s md, script1Of s md⟩ ∧ finalDefsOf s md ≠ [] := by
  rw [parse_script_eq s md hmd] at hr
  cases hfd : finalDefsOf s md with
  | nil =>
    rw [hfd] at hr
    cases hr
  | cons p ps =>
    rw [hfd] at hr
    refine ⟨?_, by simp [hfd]⟩
    cases hr
    rfl

theorem script1Of_of_vars_ne_nil (s : String) (md : ScriptMeta)
    (h : findallVars s ≠ []) :
    script1Of s md
      = s ++ mkClause ((buildVarDefs md.incl (findallVars s) []).map Prod.fst) := by
  unfold script1Of
  cases hv : findallVars s with
  | nil => exact absurd hv h
  | cons a l => rfl

/-- A script declaring one metric with the `lhist` aggregation function. -/
def lhistScript : String := "@x = lhist(0, 100, 10);\n"

/-- The same declaration with `hist`, for contrast. -/
def histScript : String := "@x = hist(10);\n"

/-- Claim C1 (code bug): the spec says a histogram variant (`hist` or
`lhist`) yields a non-scalar COUNTER declaration, and the source's own
check `func in ['hist', 'lhist']` (line 133) shows the same intent, but
the variables regex group `(count|hist)?` (line 126) cannot capture
`lhist`, leaving that branch dead: `@x = lhist(...)` derives a scalar
INSTANT declaration, while the same script with `hist` derives the
non-scalar COUNTER declaration the spec describes. -/
theorem c1_lhist_declared_scalar_instant :
    (parse_script lhistScript).toOption.map ParseResult.var_defs
      = some [("@x", ⟨true, PM_SEM_INSTANT, PM_TYPE_U64⟩)]
    ∧ (parse_script histScript).toOption.map ParseResult.var_defs
      = some [("@x", ⟨false, PM_SEM_COUNTER, PM_TYPE_U64⟩)]
    ∧ PM_SEM_INSTANT ≠ PM_SEM_COUNTER :=
  ⟨rfl, rfl, by decide⟩

/-- A line that is valid JSON but not a structured record: it lacks the
`type` field. -/
def c2Line : String := "\x7b\"foo\": 1\x7d\n"

/-- Claim C2 (code bug): a line that parses as JSON but is not a
structured record with the expected fields does not degrade to raw-text
capture.  `json.loads` succeeds, so the `except ValueError` of lines
98-103 is not triggered; `obj['type']` then raises `KeyError`, which is
not caught, so the reader thread aborts: the line is not appended to
`output` and the following well-formed record is never processed (probe
count stays 0).  A line that is not valid JSON, by contrast, is appended
verbatim and processing continues. -/
theorem c2_unstructured_record_aborts_ingestion :
    (json_loads c2Line).isSome = true
    ∧ process_output_lines
        [c2Line, "\x7b\"type\": \"attached_probes\", \"probes\": 7\x7d\n"]
        startingState
      = ({ startingState with status := "started" }, some (.keyError "type"))
    ∧ process_output_lines ["bpftrace: invalid probe\n"] startingState
      = ({ startingState with output := "bpftrace: invalid probe\n" }, none) :=
  ⟨rfl, rfl, rfl⟩

/-- Claim C7: `start()` in any state other than STOPPED and `stop()` in
any state other than STARTED raise `BPFtraceError` synchronously and
leave the shared state untouched (lines 156-161 and 178-182); in
particular a second `start()` in a row fails with the state unchanged,
and `stop()` before any `start()` fails with the state unchanged. -/
theorem c7_lifecycle_guards :
    (∀ (pid : Int) (st : BPFtraceState), st.status ≠ "stopped" →
      BPFtrace.start pid st
        = (st, some ⟨"cannot start bpftrace, current status: " ++ st.status⟩))
    ∧ (∀ (rc : Option Int) (w : Bool) (st : BPFtraceState), st.status ≠ "started" →
      BPFtrace.stop rc w st
        = (st, some ⟨"cannot stop bpftrace, current status: " ++ st.status⟩))
    ∧ ((BPFtrace.start 7 initialState).2 = none
        ∧ (BPFtrace.start 8 (BPFtrace.start 7 initialState).1).1
            = (BPFtrace.start 7 initialState).1
        ∧ (BPFtrace.start 8 (BPFtrace.start 7 initialState).1).2.isSome = true)
    ∧ ((BPFtrace.stop none false initialState).1 = initialState
        ∧ (BPFtrace.stop none false initialState).2.isSome = true) := by
  refine ⟨?_, ?_, ⟨rfl, rfl, rfl⟩, rfl, rfl⟩
  · intro pid st h
    unfold BPFtrace.start
    rw [if_pos h]
  · intro rc w st h
    unfold BPFtrace.stop
    rw [if_pos h]

/-- Witness for C7 at a concrete non-STOPPED / non-STARTED state. -/
theorem c7_lifecycle_guards_witness :
    BPFtrace.start 5 startingState
      = (startingState,
         some ⟨"cannot start bpftrace, current status: " ++ startingState.status⟩)
    ∧ BPFtrace.stop (some 0) true startingState
      = (startingState,
         some ⟨"cannot stop bpftrace, current status: " ++ startingState.status⟩) :=
  ⟨c7_lifecycle_guards.1 5 startingState (by decide),
   c7_lifecycle_guards.2.1 (some 0) true startingState (by decide)⟩

/-- Claim C6: any record processed while the status is STARTING advances
it to STARTED (lines 76-77, before the type dispatch), records processed
while STARTED leave it STARTED, and feeding the two example records from
the STARTING state yields status STARTED, probe count 3 and metric
`@x` = 5. -/
theorem c6_started_transition :
    (∀ (obj : Json) (st : BPFtraceState), st.status = "starting" →
      ((process_output_obj obj st).1).status = "started")
    ∧ (∀ (obj : Json) (st : BPFtraceState), st.status = "started" →
      ((process_output_obj obj st).1).status = "started")
    ∧ process_output_lines
        ["\x7b\"type\": \"attached_probes\", \"probes\": 3\x7d\n",
         "\x7b\"type\": \"map\", \"data\": \x7b\"@x\": 5\x7d\x7d\n"] startingState
      = ({ status := "started", pid := none, exit_code := none, output := "",
           probes := .num 3, maps := [("@x", .num 5)] }, none) := by
  refine ⟨?_, ?_, rfl⟩
  · intro obj st h
    rw [process_output_obj_status]
    unfold advanceStatus
    rw [if_pos h]
  · intro obj st h
    rw [process_output_obj_status]
    unfold advanceStatus
    have hne : ¬ st.status = "starting" := by
      rw [h]
      decide
    rw [if_neg hne]
    exact h

/-- Witness for C6's two implications at concrete records and states. -/
theorem c6_started_transition_witness :
    ((process_output_obj
        (.obj [("type", .str "attached_probes"), ("probes", .num 3)])
        startingState).1).status = "started"
    ∧ ((process_output_obj .null
        { startingState with status := "started" }).1).status = "started" :=
  ⟨c6_started_transition.1 _ startingState rfl,
   c6_started_transition.2.1 _ { startingState with status := "started" } rfl⟩

/-- Claim C5: a `printf` or `time` record appends its `msg` to the
reserved `@printf` console-text metric, concatenating onto the current
value (empty default, line 91); two consecutive `printf` records with
messages `a` then `b` leave the metric equal to `ab`. -/
theorem c5_printf_append :
    (∀ (st : BPFtraceState) (ty m s0 : String),
      (ty = "printf" ∨ ty = "time") →
      ((dictGet st.maps "@printf" = none ∧ s0 = "")
        ∨ dictGet st.maps "@printf" = some (.str s0)) →
      process_output_obj (.obj [("type", .str ty), ("msg", .str m)]) st
        = ({ advanceStatus st with
             maps := dictSet st.maps "@printf" (.str (s0 ++ m)) }, none))
    ∧ dictGet (process_output_lines
        ["\x7b\"type\": \"printf\", \"msg\": \"a\"\x7d\n",
         "\x7b\"type\": \"printf\", \"msg\": \"b\"\x7d\n"] startingState).1.maps
        "@printf" = some (.str "ab") := by
  refine ⟨?_, rfl⟩
  intro st ty m s0 hty hcur
  have hstep : ∀ hty2 : ty = "printf" ∨ ty = "time",
      process_output_obj (.obj [("type", .str ty), ("msg", .str m)]) st
        = (match pyAdd ((dictGet (advanceStatus st).maps "@printf").getD (.str ""))
              (.str m) with
           | .ok v => ({ advanceStatus st with
                         maps := dictSet (advanceStatus st).maps "@printf" v }, none)
           | .error e => (advanceStatus st, some e)) := by
    rintro (rfl | rfl) <;> rfl
  rw [hstep hty, advanceStatus_maps]
  rcases hcur with ⟨hnone, rfl⟩ | hsome
  · rw [hnone]
    rfl
  · rw [hsome]
    rfl

/-- Witness for C5 at a concrete record and a state with accumulated
console text. -/
theorem c5_printf_append_witness :
    process_output_obj (.obj [("type", .str "time"), ("msg", .str "xyz")])
      { startingState with maps := [("@printf", .str "ab")] }
      = ({ status := "started", pid := none, exit_code := none, output := "",
           probes := .num 0, maps := [("@printf", .str "abxyz")] }, none) :=
  c5_printf_append.1 { startingState with maps := [("@printf", .str "ab")] }
    "time" "xyz" "ab" (Or.inr rfl) (Or.inr rfl)

/-- Claim C4: a `hist` record replaces each named metric's value with the
derived bucket map — label `"min-max"` with the literal token `inf` for an
absent bound, mapped to the bucket's count (lines 84-89, described by
`specHistValue`); in particular the record
`{"type":"hist","data":{"@h":[{"min":0,"max":10,"count":2},{"max":20,"count":1}]}}`
yields the metric value `{"0-10": 2, "inf-20": 1}`. -/
theorem c4_hist_bucket_mapping :
    (∀ (st : BPFtraceState) (entries : List (String × List (List (String × Json)))),
      (∀ e ∈ entries, ∀ kvs ∈ e.2, (dictGet kvs "count").isSome = true) →
      process_output_obj
        (.obj [("type", .str "hist"),
               ("data", .obj (entries.map (fun e => (e.1, Json.arr (e.2.map Json.obj)))))])
        st
        = ({ advanceStatus st with
             maps := entries.foldl
               (fun m e => dictSet m e.1 (.obj (specHistValue e.2))) st.maps },
           none))
    ∧ dictGet (process_output_obj
        (.obj [("type", .str "hist"),
               ("data", .obj [("@h",
                 .arr [.obj [("min", .num 0), ("max", .num 10), ("count", .num 2)],
                       .obj [("max", .num 20), ("count", .num 1)]])])])
        startingState).1.maps "@h"
      = some (.obj [("0-10", .num 2), ("inf-20", .num 1)]) := by
  refine ⟨?_, rfl⟩
  intro st entries hc
  have h0 : process_output_obj
      (.obj [("type", .str "hist"),
             ("data", .obj (entries.map (fun e => (e.1, Json.arr (e.2.map Json.obj)))))])
      st
      = histUpdate (entries.map (fun e => (e.1, Json.arr (e.2.map Json.obj))))
          (advanceStatus st) := rfl
  rw [h0, histUpdate_entries entries (advanceStatus st) hc, advanceStatus_maps]

/-- Witness for C4's general statement at the claim's own record. -/
theorem c4_hist_bucket_mapping_witness :
    process_output_obj
      (.obj [("type", .str "hist"),
             ("data", .obj [("@h",
               .arr [.obj [("min", .num 0), ("max", .num 10), ("count", .num 2)],
                     .obj [("max", .num 20), ("count", .num 1)]])])])
      startingState
      = ({ status := "started", pid := none, exit_code := none, output := "",
           probes := .num 0,
           maps := [("@h", .obj [("0-10", .num 2), ("inf-20", .num 1)])] }, none) :=
  c4_hist_bucket_mapping.1 startingState
    [("@h", [[("min", .num 0), ("max", .num 10), ("count", .num 2)],
             [("max", .num 20), ("count", .num 1)]])]
    (by decide)

/-- A script with a recognized (and not excluded) metric declaration but
an invalid `name` annotation. -/
def c3CexScript : String := "// name: 1x\n@c = count();\n"

/-- Counterexample to C3 as stated: this script contains a recognized
metric declaration (the variable scan finds `@c` with function `count`,
and no `include` annotation excludes it), yet analysis raises a
ScriptError for the invalid name `1x` instead of producing a declaration
set and a rewritten script. -/
theorem c3_counterexample_invalid_name :
    findallVars c3CexScript = [("@c", "", "count")]
    ∧ keptVars none (findallVars c3CexScript) = [("@c", "", "count")]
    ∧ parse_script c3CexScript
      = .error ⟨"invalid value \x271x\x27 for script name: must contain only alphanumeric characters and start with a letter"⟩ :=
  ⟨rfl, rfl, rfl⟩

/-- Claim C3 (amended: the script must also carry no invalid `name`
annotation, i.e. the metadata pass must succeed): for every script whose
variable scan yields at least one declaration surviving the `include`
filter, analysis succeeds with a non-empty declaration set, the rewritten
script is the original plus the fixed 1-second periodic clause
(`mkClause`) printing exactly the declared keys, and those keys are the
first occurrences of the surviving scanned variables, in declaration
order, without duplicates — a print reference to every declared metric
exactly once.  (The reserved `@printf` console-text declaration is
synthetic, added after the clause, and is not a scanned script
variable.) -/
theorem c3_periodic_clause_amended :
    ∀ (s : String) (md : ScriptMeta) (r : ParseResult),
      processMeta (findallMeta s) ⟨none, none⟩ = .ok md →
      parse_script s = .ok r →
      keptVars md.incl (findallVars s) ≠ [] →
      r.var_defs ≠ []
      ∧ r.script = s ++ mkClause ((buildVarDefs md.incl (findallVars s) []).map Prod.fst)
      ∧ (buildVarDefs md.incl (findallVars s) []).map Prod.fst
          = firstOccs ((keptVars md.incl (findallVars s)).map (fun t => t.1))
      ∧ ((buildVarDefs md.incl (findallVars s) []).map Prod.fst).Nodup := by
  intro s md r hmd hr hk
  obtain ⟨hreq, hfd⟩ := parse_script_ok_inv s md r hmd hr
  have hvars : findallVars s ≠ [] := by
    intro h0
    apply hk
    rw [h0]
    cases md.incl <;> rfl
  have hkeys : (buildVarDefs md.incl (findallVars s) []).map Prod.fst
      = firstOccs ((keptVars md.incl (findallVars s)).map (fun t => t.1)) := by
    rw [buildVarDefs_keys, firstOccs_eq_foldl]
    rfl
  refine ⟨?_, ?_, hkeys, ?_⟩
  · rw [hreq]
    exact hfd
  · rw [hreq]
    exact script1Of_of_vars_ne_nil s md hvars
  · rw [hkeys, firstOccs_eq_foldl]
    exact foldl_addKey_nodup _ _ List.nodup_nil

/-- The concrete script instantiating the amended C3. -/
def c3wScript : String := "@c = count();\n@h = hist(1);\n"

/-- The analysis result the amended C3 predicts for `c3wScript`. -/
def c3wResult : ParseResult :=
  ⟨⟨none, none⟩,
   [("@c", ⟨true, PM_SEM_COUNTER, PM_TYPE_U64⟩),
    ("@h", ⟨false, PM_SEM_COUNTER, PM_TYPE_U64⟩)],
   c3wScript ++ mkClause ["@c", "@h"]⟩

/-- Witness for the amended C3 at a concrete two-metric script. -/
theorem c3_periodic_clause_amended_witness :
    c3wResult.var_defs ≠ []
    ∧ c3wResult.script
        = c3wScript ++ mkClause ((buildVarDefs none (findallVars c3wScript) []).map Prod.fst)
    ∧ (buildVarDefs none (findallVars c3wScript) []).map Prod.fst
        = firstOccs ((keptVars none (findallVars c3wScript)).map (fun t => t.1))
    ∧ ((buildVarDefs none (findallVars c3wScript) []).map Prod.fst).Nodup :=
  c3_periodic_clause_amended c3wScript ⟨none, none⟩ c3wResult rfl rfl (by decide)

/-- Claim C8: construction-time analysis fails with a ScriptError if and
only if some `name` annotation's value is rejected by the pattern
`^[a-zA-Z_]\w+$` or the resulting declaration set comes out empty; on a
metadata failure the declaration set is never computed and
`resultingDeclSet` is empty by definition, and `processMeta_error_iff`
shows the two failure conditions coincide there, so the disjunction is
faithful. -/
theorem c8_script_error_iff :
    ∀ s : String,
      (∃ e, parse_script s = .error e)
        ↔ (hasInvalidName s ∨ resultingDeclSet s = []) := by
  intro s
  unfold parse_script resultingDeclSet
  cases hpm : processMeta (findallMeta s) ⟨none, none⟩ with
  | error e =>
    constructor
    · intro _
      left
      exact (processMeta_error_iff _ _).mp ⟨e, hpm⟩
    · intro _
      exact ⟨e, rfl⟩
  | ok md =>
    have hni : ¬ hasInvalidName s := by
      intro hinv
      obtain ⟨e', he'⟩ := (processMeta_error_iff (findallMeta s) ⟨none, none⟩).mpr hinv
      rw [hpm] at he'
      cases he'
    show (∃ e, (match finalDefsOf s md with
        | [] => (Except.error (BPFtraceError.mk "no bpftrace variables or printf statements found, please include at least one variable or print statement in your script") : Except BPFtraceError ParseResult)
        | _ => Except.ok (ParseResult.mk md (finalDefsOf s md) (script1Of s md)))
        = Except.error e)
      ↔ (hasInvalidName s ∨ finalDefsOf s md = [])
    cases hfd : finalDefsOf s md with
    | nil =>
      simp only [hfd]
      constructor
      · intro _
        exact Or.inr trivial
      · intro _
        exact ⟨_, rfl⟩
    | cons p ps =>
      simp only [hfd]
      constructor
      · rintro ⟨e, he⟩
        cases he
      · rintro (hinv | habs)
        · exact absurd hinv hni
        · cases habs

/-- Claim C10: with an `include` annotation present (value split on commas
with no whitespace trimming, `pySplit`), a scanned variable is kept iff
its exact sigil-prefixed name equals one of the split entries, and the
reserved `@printf` console-text metric is kept only if the literal entry
`@printf` appears in the list (lines 122-123, 129 and 146). -/
theorem c10_include_exact_match :
    ∀ (s incVal : String) (md : ScriptMeta) (r : ParseResult),
      processMeta (findallMeta s) ⟨none, none⟩ = .ok md →
      md.incl = some (pySplit incVal ',') →
      parse_script s = .ok r →
      ∀ v, v ∈ r.var_defs.map Prod.fst
        ↔ (v ∈ pySplit incVal ','
            ∧ (v ∈ (findallVars s).map (fun t => t.1)
               ∨ (v = "@printf" ∧ hasPrintfCall r.script = true))) := by
  intro s incVal md r hmd hincl hr v
  obtain ⟨hreq, _⟩ := parse_script_ok_inv s md r hmd hr
  have hkeys : ∀ w, w ∈ (buildVarDefs md.incl (findallVars s) []).map Prod.fst
      ↔ (w ∈ (findallVars s).map (fun t => t.1) ∧ w ∈ pySplit incVal ',') := by
    intro w
    rw [buildVarDefs_keys, hincl]
    show w ∈ List.foldl addKey [] _ ↔ _
    rw [foldl_addKey_mem]
    simp only [List.not_mem_nil, false_or]
    exact mem_keptVars_map _ _ _
  rw [hreq]
  show v ∈ (finalDefsOf s md).map Prod.fst
    ↔ (v ∈ pySplit incVal ','
        ∧ (v ∈ (findallVars s).map (fun t => t.1)
           ∨ (v = "@printf" ∧ hasPrintfCall (script1Of s md) = true)))
  unfold finalDefsOf
  rw [mem_varDefsAfterPrintf, hkeys, hincl]
  constructor
  · rintro (⟨hsc, hl⟩ | ⟨rfl, hpf, hcond⟩)
    · exact ⟨hl, Or.inl hsc⟩
    · rcases hcond with hnone | hmem
      · exact Option.noConfusion hnone
      · exact ⟨hmem, Or.inr ⟨rfl, hpf⟩⟩
  · rintro ⟨hl, hsc | ⟨rfl, hpf⟩⟩
    · exact Or.inl ⟨hsc, hl⟩
    · exact Or.inr ⟨rfl, hpf, Or.inr hl⟩

/-- A script with an `include` annotation listing `@a` exactly and `@b`
only with a leading space. -/
def c10Script : String := "// include: @a, @b\n@a = 1;\n@b = 2;\n"

/-- The metadata the annotation pass derives for `c10Script`. -/
def c10Meta : ScriptMeta := ⟨none, some ["@a", " @b"]⟩

/-- The analysis result for `c10Script`: only `@a` is kept, since the
entry for `@b` carries the space and never matches. -/
def c10Result : ParseResult :=
  ⟨c10Meta, [("@a", ⟨true, PM_SEM_INSTANT, PM_TYPE_U64⟩)],
   c10Script ++ mkClause ["@a"]⟩

/-- Witness for C10: `@a` is kept, and `@b` is dropped because the split
entry `" @b"` (with the space) does not equal `"@b"`. -/
theorem c10_include_exact_match_witness :
    "@a" ∈ c10Result.var_defs.map Prod.fst
    ∧ "@b" ∉ c10Result.var_defs.map Prod.fst := by
  have h := c10_include_exact_match c10Script "@a, @b" c10Meta c10Result rfl rfl rfl
  constructor
  · exact (h "@a").mpr ⟨by decide, Or.inl (by decide)⟩
  · intro hmem
    have h2 := (h "@b").mp hmem
    revert h2
    decide

/-- Claim C9: the read accessor's `deepcopy` (line 71) yields a snapshot
that reads back equal to the live map, while referencing only freshly
allocated nested dicts, so no two of the live map and any snapshots are
mutually aliased: a subsequent writer mutation of any pre-existing cell
(in particular every nested dict the live map references) leaves the
snapshot's readout unchanged; mutating through the snapshot's references
leaves the live map's readout unchanged; and for two successive snapshots
`(h1, s1)` and `(h2, s2)` of the same live map, mutating through the
second snapshot's references leaves the first snapshot's readout
unchanged, and mutating through the first snapshot's references leaves
the second snapshot's readout unchanged. -/
theorem c9_state_deepcopy_isolation :
    ∀ (h : Heap) (d : List (String × HVal)) (h1 h2 : Heap)
      (s1 s2 : List (String × HVal)),
      h.WF →
      (∀ a ∈ refsOf d, a < h.next) →
      BPFtrace.state h d = (h1, s1) →
      BPFtrace.state h1 d = (h2, s2) →
      readDict h1 s1 = readDict h d
      ∧ (∀ a, a < h.next → ∀ (k : String) (p : Prim),
          readDict (h1.writeBucket a k p) s1 = readDict h1 s1)
      ∧ (∀ a ∈ refsOf s1, ∀ (k : String) (p : Prim),
          readDict (h1.writeBucket a k p) d = readDict h1 d)
      ∧ (∀ a ∈ refsOf s2, ∀ (k : String) (p : Prim),
          readDict (h2.writeBucket a k p) s1 = readDict h2 s1)
      ∧ (∀ a ∈ refsOf s1, ∀ (k : String) (p : Prim),
          readDict (h2.writeBucket a k p) s2 = readDict h2 s2) := by
  intro h d h1 h2 s1 s2 hwf hrefs hS1 hS2
  have hh1 : h1 = (deepcopyDict h d).1 := by
    rw [show deepcopyDict h d = (h1, s1) from hS1]
  have hs1 : s1 = (deepcopyDict h d).2 := by
    rw [show deepcopyDict h d = (h1, s1) from hS1]
  subst hh1
  subst hs1
  have hh2 : h2 = (deepcopyDict (deepcopyDict h d).1 d).1 := by
    rw [show deepcopyDict (deepcopyDict h d).1 d = (h2, s2) from hS2]
  have hs2 : s2 = (deepcopyDict (deepcopyDict h d).1 d).2 := by
    rw [show deepcopyDict (deepcopyDict h d).1 d = (h2, s2) from hS2]
  subst hh2
  subst hs2
  refine ⟨deepcopyDict_read h d hwf hrefs, ?_, ?_, ?_, ?_⟩
  · intro a ha k p
    apply readDict_writeBucket_notMem
    intro hmem
    exact absurd ha (Nat.not_lt.mpr (deepcopyDict_refs_lb h d a hmem))
  · intro a ha k p
    apply readDict_writeBucket_notMem
    intro hmem
    exact absurd (hrefs a hmem) (Nat.not_lt.mpr (deepcopyDict_refs_lb h d a ha))
  · intro a ha k p
    apply readDict_writeBucket_notMem
    intro hmem
    exact absurd (deepcopyDict_refs_ub h d a hmem)
      (Nat.not_lt.mpr (deepcopyDict_refs_lb (deepcopyDict h d).1 d a ha))
  · intro a ha k p
    apply readDict_writeBucket_notMem
    intro hmem
    exact absurd (deepcopyDict_refs_ub h d a ha)
      (Nat.not_lt.mpr (deepcopyDict_refs_lb (deepcopyDict h d).1 d a hmem))

/-- A live heap holding one bucket map at address 0. -/
def heap0 : Heap := ⟨[(0, [("0-10", .num 2)])], 1⟩

/-- A live metric map with one histogram reference and one scalar. -/
def live0 : List (String × HVal) := [("@h", .ref 0), ("@x", .prim (.num 5))]

/-- The heap after the first snapshot of `live0`: a fresh copy of the
bucket map was allocated at address 1. -/
def snap1Heap : Heap :=
  ⟨[(0, [("0-10", .num 2)]), (1, [("0-10", .num 2)])], 2⟩

/-- The first snapshot's metric map: its bucket reference is the fresh
address 1. -/
def snap1Map : List (String × HVal) := [("@h", .ref 1), ("@x", .prim (.num 5))]

/-- The heap after a second snapshot of `live0`: another fresh copy of
the bucket map was allocated at address 2. -/
def snap2Heap : Heap :=
  ⟨[(0, [("0-10", .num 2)]), (1, [("0-10", .num 2)]), (2, [("0-10", .num 2)])], 3⟩

/-- The second snapshot's metric map: its bucket reference is the fresh
address 2. -/
def snap2Map : List (String × HVal) := [("@h", .ref 2), ("@x", .prim (.num 5))]

/-- Witness for C9 with two successive snapshots of `live0`: the first
snapshot reads back equal to the live map; mutating the live bucket map
(address 0) leaves the first snapshot unchanged; mutating the first
snapshot's bucket map (address 1) leaves the live readout unchanged;
mutating the second snapshot's bucket map (address 2) leaves the first
snapshot unchanged; and mutating the first snapshot's bucket map leaves
the second snapshot unchanged. -/
theorem c9_state_deepcopy_isolation_witness :
    readDict snap1Heap snap1Map = readDict heap0 live0
    ∧ readDict (snap1Heap.writeBucket 0 "0-10" (.num 99)) snap1Map
        = readDict snap1Heap snap1Map
    ∧ readDict (snap1Heap.writeBucket 1 "0-10" (.num 99)) live0
        = readDict snap1Heap live0
    ∧ readDict (snap2Heap.writeBucket 2 "0-10" (.num 99)) snap1Map
        = readDict snap2Heap snap1Map
    ∧ readDict (snap2Heap.writeBucket 1 "0-10" (.num 99)) snap2Map
        = readDict snap2Heap snap2Map := by
  have h := c9_state_deepcopy_isolation heap0 live0 snap1Heap snap2Heap
    snap1Map snap2Map
    (by intro p hp; rcases List.mem_singleton.mp hp with rfl; decide) (by decide)
    rfl rfl
  exact ⟨h.1, h.2.1 0 (by decide) "0-10" (.num 99),
    h.2.2.1 1 (by decide) "0-10" (.num 99),
    h.2.2.2.1 2 (by decide) "0-10" (.num 99),
    h.2.2.2.2 1 (by decide) "0-10" (.num 99)⟩
